import Mathlib

/-!
Shallow embedding of `src/srp/src/algo.rs` (SRP-6a protocol engine).

Big integers (`NumBigInt` behind `BigNumTrait`) are embedded as `ℤ`; byte
sequences (`Vec<u8>`, `&[u8]`) as `List ℕ` with entries below 256.  The
`bignum`, `sha2`, `mac` and `rand` crates are dependencies of this repository
whose code is not under `src/`; their operations are modelled from the spec's
contracts (each such definition carries a doc comment saying so).  Randomness
(`thread_rng`, `gen_below`) is modelled by passing the drawn values in
explicitly, as the spec's §9 "Randomness source" note suggests.
-/

/-- Modelled from the spec: helper for big-endian serialization of a
non-negative integer (minimal-width, most significant byte first); the
`bignum` crate's `to_bytes_be` is not under `src/`.  The first argument is
fuel bounding the recursion depth. -/
def bytesBEAux : ℕ → ℕ → List ℕ
  | 0, _ => []
  | fuel + 1, x => if x = 0 then [] else bytesBEAux fuel (x / 256) ++ [x % 256]

/-- Modelled from the spec: `BigNumTrait::to_bytes_be`, big-endian
minimal-width byte serialization (the `bignum` crate is not under `src/`). -/
def to_bytes_be (x : ℤ) : List ℕ :=
  bytesBEAux x.toNat x.toNat

/-- Modelled from the spec: `BigNumTrait::from_bytes_be`, big-endian byte
deserialization (the `bignum` crate is not under `src/`). -/
def from_bytes_be (l : List ℕ) : ℤ :=
  ((l.foldl (fun acc b => acc * 256 + b) 0 : ℕ) : ℤ)

/-- Embeds `pub fn serialize<T: BigNumTrait>(x: &T) -> Vec<u8>` from
`algo.rs`. -/
def serialize (x : ℤ) : List ℕ :=
  to_bytes_be x

/-- Embeds `pub fn deserialize<T: BigNumTrait>(x: &[u8]) -> T` from
`algo.rs`. -/
def deserialize (l : List ℕ) : ℤ :=
  from_bytes_be l

/-- Modelled from the spec: the Digest contract (`sha2::Sha256::digest`).
The sha2 crate is not under `src/`; the spec only requires a deterministic
hash with a fixed 32-byte output, so a deterministic stand-in with exactly
that shape (32 bytes, each below 256) is used. -/
def sha256digest (msg : List ℕ) : List ℕ :=
  List.replicate 31 0 ++ [msg.foldl (fun acc b => (acc * 33 + b + 1) % 256) (msg.length % 256)]

/-- Modelled from the spec: the MAC contract (`mac::hmac_sha256`).  The mac
crate is not under `src/`; the spec only requires a deterministic keyed MAC,
realised here in the HMAC shape (outer digest over padded key and inner
digest) on top of the modelled digest. -/
def hmac_sha256 (key message : List ℕ) : List ℕ :=
  sha256digest ((key.map fun b => (b + 92) % 256) ++
    sha256digest ((key.map fun b => (b + 54) % 256) ++ message))

/-- Modelled from the spec: `BigNumTrait::mod_exp`.  The bignum crate is not
under `src/`; per the spec (§4.4, §9) the group arithmetic normalizes the
base into `[0, N)` (correcting a negative naive subtraction) before the
exponentiation, which `Int.emod` provides for a positive modulus. -/
def mod_exp (b e n : ℤ) : ℤ :=
  (b % n) ^ e.toNat % n

/-- Modelled from the spec: value of one hexadecimal digit, part of the
`BigNumTrait::from_hex_str` contract (the bignum crate is not under
`src/`). -/
def hexDigitVal (c : Char) : Option ℕ :=
  if ('0' ≤ c) ∧ (c ≤ '9') then some (c.toNat - '0'.toNat)
  else if ('a' ≤ c) ∧ (c ≤ 'f') then some (c.toNat - 'a'.toNat + 10)
  else if ('A' ≤ c) ∧ (c ≤ 'F') then some (c.toNat - 'A'.toNat + 10)
  else none

/-- Modelled from the spec: `BigNumTrait::from_hex_str`, which parses a
hexadecimal string and fails (`ParseError`, here `none`) on malformed
input. -/
def from_hex_str (s : String) : Option ℤ :=
  if s.data.isEmpty then none
  else s.data.foldl (fun acc c => acc.bind fun a => (hexDigitVal c).map fun d => a * 16 + d)
    (some 0)

/-- Embeds `pub struct SRP { N, g, k }` from `algo.rs`. -/
structure SRP where
  N : ℤ
  g : ℤ
  k : ℤ

/-- The hard-coded hexadecimal literal `N_hex` from `SRP::new` (the Rust
string continuations concatenate the six 64-digit chunks). -/
def N_hex : String :=
  "ffffffffffffffffc90fdaa22168c234c4c6628b80dc1cd129024e088a67cc74" ++
  "020bbea63b139b22514a08798e3404ddef9519b3cd3a431b302b0a6df25f1437" ++
  "4fe1356d6d51c245e485b576625e7ec6f44c42e9a637ed6b0bff5cb6f406b7ed" ++
  "ee386bfb5a899fa5ae9f24117c4b1fe649286651ece45b3dc2007cb8a163bf05" ++
  "98da48361c55d39a69163fa8fd24cf5f83655d23dca3ad961c62f356208552bb" ++
  "9ed529077096966d670c354e4abc9804f1746c08ca237327ffffffffffffffff"

/-- Embeds `SRP::new` from `algo.rs`: parse `N_hex` (`unwrap` modelled as
`getD 0`; the theorem for C8 shows the default branch is unreachable),
`g = 2`, `k = 3`. -/
def SRP.new : SRP :=
  { N := (from_hex_str N_hex).getD 0, g := 2, k := 3 }

/-- Embeds `fn compute_u(A: &BigNum, B: &BigNum) -> BigNum` from `algo.rs`:
build a buffer from the serializations of `A` then `B`, digest it, and
reinterpret the digest as a big-endian integer. -/
def compute_u (A B : ℤ) : ℤ :=
  let buffer : List ℕ := []
  let buffer := buffer ++ serialize A
  let buffer := buffer ++ serialize B
  deserialize (sha256digest buffer)

/-- Embeds `fn compute_x(salt: &[u8], password: &[u8]) -> BigNum` from
`algo.rs`: build a buffer from `salt` then `password`, digest it, and
reinterpret the digest as a big-endian integer. -/
def compute_x (salt password : List ℕ) : ℤ :=
  let buffer : List ℕ := []
  let buffer := buffer ++ salt
  let buffer := buffer ++ password
  deserialize (sha256digest buffer)

/-- Embeds `SRP::password_to_secret` from `algo.rs`: take 128 bytes from the
random generator as the salt, compute `x`, and return
`(salt, g^x mod N)`.  The `rand::thread_rng` byte stream is modelled as the
explicit argument `rng` (byte `i` of the stream is `rng i % 256`). -/
def SRP.password_to_secret (srp : SRP) (password : List ℕ) (rng : ℕ → ℕ) : List ℕ × ℤ :=
  let salt : List ℕ := (List.range 128).map fun i => rng i % 256
  let x := compute_x salt password
  (salt, mod_exp srp.g x srp.N)

/-- Embeds `struct HandshakeState<'a>` from `algo.rs` (the `&'a SRP`
reference is embedded as a copy of the parameters value). -/
structure HandshakeState where
  srp : SRP
  exponent : ℤ
  power : ℤ

/-- Embeds `HandshakeState::new` from `algo.rs`: the private exponent drawn
by `gen_below(&srp.N)` is modelled as the explicit argument `exponent`; the
public `power` is `g^exponent mod N`. -/
def HandshakeState.new (srp : SRP) (exponent : ℤ) : HandshakeState :=
  { srp := srp, exponent := exponent, power := mod_exp srp.g exponent srp.N }

/-- Embeds `pub struct ClientHandshake<'a>` from `algo.rs`. -/
structure ClientHandshake where
  state : HandshakeState
  password : List ℕ

/-- Embeds `ClientHandshake::new` from `algo.rs` (the random private
exponent is passed in explicitly, as in `HandshakeState.new`). -/
def ClientHandshake.new (srp : SRP) (password : List ℕ) (a : ℤ) : ClientHandshake :=
  { state := HandshakeState.new srp a, password := password }

/-- Embeds `ClientHandshake::A` from `algo.rs`: the client's public
ephemeral value, the raw `power`. -/
def ClientHandshake.A (c : ClientHandshake) : ℤ :=
  c.state.power

/-- The premaster secret `S` computed inside `ClientHandshake::compute_secret`
in `algo.rs`: `S = (B - k*g^x mod N)^(a + u*x) mod N`. -/
def ClientHandshake.computeS (c : ClientHandshake) (B : ℤ) (salt : List ℕ) : ℤ :=
  let srp := c.state.srp
  let u := compute_u c.state.power B
  let x := compute_x salt c.password
  mod_exp (B - srp.k * mod_exp srp.g x srp.N) (c.state.exponent + u * x) srp.N

/-- The session key `K` computed inside `ClientHandshake::compute_secret` in
`algo.rs`: `K = Sha256::digest(serialize(S))`. -/
def ClientHandshake.computeK (c : ClientHandshake) (B : ℤ) (salt : List ℕ) : List ℕ :=
  sha256digest (serialize (c.computeS B salt))

/-- Embeds `ClientHandshake::compute_secret` from `algo.rs`: compute `S`,
then `K`, and return `hmac_sha256(K, salt)`. -/
def ClientHandshake.compute_secret (c : ClientHandshake) (B : ℤ) (salt : List ℕ) : List ℕ :=
  hmac_sha256 (c.computeK B salt) salt

/-- Embeds `pub struct ServerHandshake<'a>` from `algo.rs`. -/
structure ServerHandshake where
  state : HandshakeState
  B : ℤ
  salt : List ℕ
  v : ℤ

/-- Embeds `ServerHandshake::new` from `algo.rs`: build a handshake state
(random exponent passed in explicitly) and set `B = state.power + k * v`
exactly as the source does (note: a plain integer sum, with no reduction
modulo `N`). -/
def ServerHandshake.new (srp : SRP) (salt : List ℕ) (v : ℤ) (b : ℤ) : ServerHandshake :=
  let state := HandshakeState.new srp b
  { state := state, B := state.power + srp.k * v, salt := salt, v := v }

/-- The premaster secret `S` computed inside `ServerHandshake::compute_secret`
in `algo.rs`: `S = (A * v^u mod N)^b mod N`. -/
def ServerHandshake.computeS (s : ServerHandshake) (A : ℤ) : ℤ :=
  let srp := s.state.srp
  let u := compute_u A s.B
  mod_exp (A * mod_exp s.v u srp.N) s.state.exponent srp.N

/-- The session key `K` computed inside `ServerHandshake::compute_secret` in
`algo.rs`: `K = Sha256::digest(serialize(S))`. -/
def ServerHandshake.computeK (s : ServerHandshake) (A : ℤ) : List ℕ :=
  sha256digest (serialize (s.computeS A))

/-- Embeds `ServerHandshake::compute_secret` from `algo.rs`: compute `S`,
then `K`, and return `hmac_sha256(K, self.salt)`. -/
def ServerHandshake.compute_secret (s : ServerHandshake) (A : ℤ) : List ℕ :=
  hmac_sha256 (s.computeK A) s.salt

/-- Spec-side restatement of `compute_u` (§4.6): serialize both operands to
big-endian bytes, concatenate `A` bytes then `B` bytes, hash, reinterpret
the digest as a big-endian integer.  Kept separate from the source-side
`compute_u` so the two can be compared (claim C7). -/
def compute_u_spec (A B : ℤ) : ℤ :=
  deserialize (sha256digest (serialize A ++ serialize B))

/-- Spec-side restatement of `compute_x` (§4.6): concatenate `salt` then
`password` bytes, hash, reinterpret the digest as a big-endian integer. -/
def compute_x_spec (salt password : List ℕ) : ℤ :=
  deserialize (sha256digest (salt ++ password))

/-- The value denoted by the hex literal `N_hex` (the RFC 3526 1536-bit
MODP prime), written in decimal. -/
def NValue : ℤ :=
  2410312426921032588552076022197566074856950548502459942654116941958108831682612228890093858261341614673227141477904012196503648957050582631942730706805009223062734745341073406696246014589361659774041027169249453200378729434170325843778659198143763193776859869524088940195577346119843545301547043747207749969763750084308926339295559968882457872412993810129130294592999947926365264059284647209730384947211681434464714438488520940127459844288859336526896320919633919

/-- Deterministic zero byte stream, used as a concrete random source in
closed statements. -/
def zeroRng : ℕ → ℕ :=
  fun _ => 0

/-! Helper lemmas (shared; none of these is a claim's theorem). -/

lemma int_pow_emod (a : ℤ) (b : ℕ) (n : ℤ) : a ^ b % n = (a % n) ^ b % n := by
  induction b with
  | zero => rfl
  | succ k ih =>
      calc a ^ (k + 1) % n = (a ^ k * a) % n := by rw [pow_succ]
        _ = ((a ^ k % n) * (a % n)) % n := by rw [Int.mul_emod]
        _ = (((a % n) ^ k % n) * (a % n % n)) % n := by
              rw [ih, Int.emod_emod_of_dvd _ dvd_rfl]
        _ = ((a % n) ^ k * (a % n)) % n := by rw [← Int.mul_emod]
        _ = (a % n) ^ (k + 1) % n := by rw [pow_succ]

lemma mod_exp_pow_pow (g n : ℤ) (p q : ℕ) :
    ((g % n) ^ p % n) ^ q % n = (g % n) ^ (p * q) % n := by
  rw [← int_pow_emod ((g % n) ^ p) q n, ← pow_mul]

lemma mod_exp_mod_exp (g e₁ e₂ n : ℤ) :
    mod_exp (mod_exp g e₁ n) e₂ n = (g % n) ^ (e₁.toNat * e₂.toNat) % n := by
  unfold mod_exp
  rw [Int.emod_emod_of_dvd _ dvd_rfl, mod_exp_pow_pow]

lemma compute_u_nonneg (A B : ℤ) : 0 ≤ compute_u A B := by
  unfold compute_u deserialize from_bytes_be
  exact Int.natCast_nonneg _

lemma compute_x_nonneg (salt password : List ℕ) : 0 ≤ compute_x salt password := by
  unfold compute_x deserialize from_bytes_be
  exact Int.natCast_nonneg _

lemma sha256digest_length (msg : List ℕ) : (sha256digest msg).length = 32 := by
  simp [sha256digest]

lemma hmac_sha256_length (key message : List ℕ) : (hmac_sha256 key message).length = 32 :=
  sha256digest_length _

lemma srp_algebra (N g k a b u x : ℤ) (ha : 0 ≤ a) (hb : 0 ≤ b) (hu : 0 ≤ u) (hx : 0 ≤ x) :
    mod_exp (mod_exp g b N + k * mod_exp g x N - k * mod_exp g x N) (a + u * x) N
      = mod_exp (mod_exp g a N * mod_exp (mod_exp g x N) u N) b N := by
  obtain ⟨a', rfl⟩ := Int.eq_ofNat_of_zero_le ha
  obtain ⟨b', rfl⟩ := Int.eq_ofNat_of_zero_le hb
  obtain ⟨u', rfl⟩ := Int.eq_ofNat_of_zero_le hu
  obtain ⟨x', rfl⟩ := Int.eq_ofNat_of_zero_le hx
  rw [add_sub_cancel_right]
  rw [show ((a' : ℤ) + (u' : ℤ) * (x' : ℤ)) = ((a' + u' * x' : ℕ) : ℤ) by push_cast; ring]
  rw [mod_exp_mod_exp, mod_exp_mod_exp]
  conv_rhs => rw [mod_exp]
  rw [show (mod_exp g (a' : ℤ) N) = (g % N) ^ a' % N by
    unfold mod_exp; rw [Int.toNat_ofNat]]
  simp only [Int.toNat_ofNat]
  rw [← Int.mul_emod, ← pow_add, mod_exp_pow_pow]
  rw [show b' * (a' + u' * x') = (a' + x' * u') * b' by ring]

lemma foldl_bytes_append (l : List ℕ) (d : ℕ) :
    (l ++ [d]).foldl (fun acc b => acc * 256 + b) 0 = l.foldl (fun acc b => acc * 256 + b) 0 * 256 + d := by
  rw [List.foldl_append]
  rfl

lemma bytesBEAux_roundtrip :
    ∀ fuel x : ℕ, x ≤ fuel → (bytesBEAux fuel x).foldl (fun acc b => acc * 256 + b) 0 = x := by
  intro fuel
  induction fuel with
  | zero =>
      intro x hx
      have hx0 : x = 0 := by omega
      subst hx0
      rfl
  | succ f ih =>
      intro x hx
      by_cases h0 : x = 0
      · subst h0
        simp [bytesBEAux]
      · rw [bytesBEAux, if_neg h0, foldl_bytes_append, ih (x / 256) (by omega)]
        omega

/-- C9: serialization round-trip: for a non-negative BigInteger value `x`
(every value the module produces is non-negative),
`deserialize (serialize x) = x`, where `serialize` is big-endian byte
encoding and `deserialize` big-endian decoding. -/
theorem serialize_roundtrip (x : ℤ) (hx : 0 ≤ x) : deserialize (serialize x) = x := by
  unfold deserialize serialize to_bytes_be from_bytes_be
  rw [bytesBEAux_roundtrip x.toNat x.toNat le_rfl, Int.toNat_of_nonneg hx]

/-- Witness for C9 at the concrete value 66052 (bytes `[1, 2, 4]`). -/
theorem serialize_roundtrip_witness : (0 : ℤ) ≤ 66052 ∧ deserialize (serialize 66052) = 66052 :=
  ⟨by decide, serialize_roundtrip 66052 (by decide)⟩

/-- C10: for every handshake state and every input, the authenticator
returned by `compute_secret` on either side is exactly 32 bytes (the
HMAC-SHA256 output length), and the session key `K` hashed into it is
exactly 32 bytes (the SHA-256 digest length). -/
theorem authenticator_and_key_length (c : ClientHandshake) (B : ℤ) (salt : List ℕ)
    (s : ServerHandshake) (A : ℤ) :
    (c.compute_secret B salt).length = 32 ∧ (c.computeK B salt).length = 32 ∧
    (s.compute_secret A).length = 32 ∧ (s.computeK A).length = 32 :=
  ⟨hmac_sha256_length _ _, sha256digest_length _, hmac_sha256_length _ _, sha256digest_length _⟩

/-- C2: in `ClientHandshake::compute_secret` the premaster secret is
`S = (B - k*g^x mod N)^(a + u*x) mod N` with the base reduced into `[0, N)`
(a negative naive subtraction is corrected) before the modular
exponentiation is performed. -/
theorem client_base_reduction (c : ClientHandshake) (B : ℤ) (salt : List ℕ)
    (hN : 0 < c.state.srp.N) :
    0 ≤ (B - c.state.srp.k * mod_exp c.state.srp.g (compute_x salt c.password) c.state.srp.N)
        % c.state.srp.N ∧
    (B - c.state.srp.k * mod_exp c.state.srp.g (compute_x salt c.password) c.state.srp.N)
        % c.state.srp.N < c.state.srp.N ∧
    c.computeS B salt =
      ((B - c.state.srp.k * mod_exp c.state.srp.g (compute_x salt c.password) c.state.srp.N)
          % c.state.srp.N)
        ^ (c.state.exponent + compute_u c.state.power B * compute_x salt c.password).toNat
        % c.state.srp.N :=
  ⟨Int.emod_nonneg _ hN.ne', Int.emod_lt_of_pos _ hN, rfl⟩

/-- Witness for C2 on a concrete client (`N = 23`, `g = 5`, `k = 3`,
password `[9]`, private exponent 7) and peer value `B = 100`. -/
theorem client_base_reduction_witness :
    0 ≤ (100 - 3 * mod_exp 5 (compute_x [4] [9]) 23) % 23 ∧
    (100 - 3 * mod_exp 5 (compute_x [4] [9]) 23) % 23 < 23 ∧
    (ClientHandshake.new ⟨23, 5, 3⟩ [9] 7).computeS 100 [4] =
      ((100 - 3 * mod_exp 5 (compute_x [4] [9]) 23) % 23)
        ^ ((7 : ℤ) + compute_u (mod_exp 5 7 23) 100 * compute_x [4] [9]).toNat % 23 :=
  client_base_reduction (ClientHandshake.new ⟨23, 5, 3⟩ [9] 7) 100 [4] (by decide)

/-- C3 counterexample: with `N = 23`, `g = 5`, `k = 3`, `v = 22` and private
exponent `b = 0`, `ServerHandshake::new` yields `B = 1 + 3*22 = 67`, which
is not below `N` (the source computes `state.power + k*v` without reducing
modulo `N`), so `B()` does not always lie in `[0, N)`. -/
theorem serverB_unreduced_counterexample :
    (ServerHandshake.new ⟨23, 5, 3⟩ [] 22 0).B = 67 ∧
    ¬ ((ServerHandshake.new ⟨23, 5, 3⟩ [] 22 0).B < (23 : ℤ)) ∧
    (ServerHandshake.new ⟨23, 5, 3⟩ [] 22 0).B % 23 = 21 := by
  refine ⟨rfl, by decide, by decide⟩

/-- C3 amended: `ServerHandshake::new` computes the published ephemeral as
the unreduced integer sum `B = (g^b mod N) + k*v`; this value is congruent
to `k*v + g^b` modulo `N`, but it is not reduced modulo `N` and need not
lie in `[0, N)`. -/
theorem serverB_formula (srp : SRP) (salt : List ℕ) (v b : ℤ) :
    (ServerHandshake.new srp salt v b).B = mod_exp srp.g b srp.N + srp.k * v ∧
    (ServerHandshake.new srp salt v b).B % srp.N = (srp.k * v + srp.g ^ b.toNat) % srp.N := by
  constructor
  · rfl
  · show (mod_exp srp.g b srp.N + srp.k * v) % srp.N = _
    unfold mod_exp
    rw [Int.emod_add_emod, Int.add_emod, ← int_pow_emod, ← Int.add_emod, add_comm]

set_option maxRecDepth 40000 in
/-- C4 counterexample: the code has no degenerate-value guard.  With
`N = 23`, `g = 5`, `k = 3`, salt `[7]`, verifier `4`, private exponent `3`,
a server handshake fed the degenerate peer value `A = 0` (so `A ≡ 0 mod N`)
silently computes and returns an authenticator (the 32-byte value below,
derived from the predictable premaster secret `S = 0`) instead of aborting
with an `InvalidPublicValue` error — `compute_secret` has no error case at
all. -/
theorem server_zero_secret_counterexample :
    (ServerHandshake.new ⟨23, 5, 3⟩ [7] 4 3).compute_secret 0 = List.replicate 31 0 ++ [41] := by
  decide

/-- C4 amended: neither side checks the peer's public ephemeral value:
`compute_secret` never aborts.  When the server receives `A ≡ 0 (mod N)`
(with a positive private exponent) it silently computes the predictable
premaster secret `S = 0` and returns its authenticator; likewise the client
still returns a 32-byte authenticator when fed `B ≡ 0 (mod N)`.  No
`InvalidPublicValue` error exists in the code. -/
theorem zero_public_value_computes_secret (srp : SRP) (salt password : List ℕ)
    (v b a A B : ℤ) (hb : 0 < b) (hA : A % srp.N = 0) (hB : B % srp.N = 0) :
    (ServerHandshake.new srp salt v b).computeS A = 0 ∧
    (ServerHandshake.new srp salt v b).compute_secret A =
      hmac_sha256 (sha256digest (serialize 0)) salt ∧
    ((ClientHandshake.new srp password a).compute_secret B salt).length = 32 := by
  have hS : (ServerHandshake.new srp salt v b).computeS A = 0 := by
    show mod_exp (A * _) b srp.N = 0
    unfold mod_exp
    rw [Int.emod_eq_zero_of_dvd ((Int.dvd_of_emod_eq_zero hA).mul_right _),
      zero_pow (by omega), Int.zero_emod]
  refine ⟨hS, ?_, hmac_sha256_length _ _⟩
  show hmac_sha256 (sha256digest (serialize ((ServerHandshake.new srp salt v b).computeS A))) salt
      = _
  rw [hS]

/-- Witness for the amended C4 at `N = 23`, `g = 5`, `k = 3`, salt `[7]`,
verifier `4`, exponents `b = 3` and `a = 1`, degenerate peer values
`A = B = 0`. -/
theorem zero_public_value_witness :
    (ServerHandshake.new ⟨23, 5, 3⟩ [7] 4 3).computeS 0 = 0 ∧
    (ServerHandshake.new ⟨23, 5, 3⟩ [7] 4 3).compute_secret 0 =
      hmac_sha256 (sha256digest (serialize 0)) [7] ∧
    ((ClientHandshake.new ⟨23, 5, 3⟩ [2] 1).compute_secret 0 [7]).length = 32 :=
  zero_public_value_computes_secret ⟨23, 5, 3⟩ [7] [2] 4 3 1 0 0 (by decide) (by decide)
    (by decide)

set_option maxRecDepth 40000 in
/-- C5 counterexample: `password_to_secret` returns a plain
`(salt, verifier)` pair with no error case distinguishing RNG failure: on
the all-zero random stream it evaluates to an ordinary pair (salt of 128
zero bytes, verifier 5), not to a value carrying a
`RandomSourceUnavailable` alternative. -/
theorem password_to_secret_no_error_counterexample :
    (SRP.mk 23 5 3).password_to_secret [1, 2] zeroRng = (List.replicate 128 0, 5) := by
  decide

/-- C5 amended: `password_to_secret` returns a plain `(Vec<u8>, BigNum)`
pair and `HandshakeState::new` a plain state value; neither result carries
an error case, so RNG failure is not represented as a
`RandomSourceUnavailable` value (in the source, `rand::thread_rng` /
`gen_below` would panic out-of-band instead). -/
theorem results_carry_no_error_case (srp : SRP) (password : List ℕ) (rng : ℕ → ℕ) (e : ℤ) :
    srp.password_to_secret password rng =
      ((List.range 128).map fun i => rng i % 256,
        mod_exp srp.g (compute_x ((List.range 128).map fun i => rng i % 256) password) srp.N) ∧
    HandshakeState.new srp e = ⟨srp, e, mod_exp srp.g e srp.N⟩ :=
  ⟨rfl, rfl⟩

/-- C6: for every password and random stream, `password_to_secret` returns a
pair `(salt, verifier)` where `salt` is the freshly drawn byte sequence of
fixed length 128 and `verifier = g^x mod N` with
`x = H(salt || password)` interpreted as a big-endian integer. -/
theorem password_to_secret_salt_verifier (srp : SRP) (password : List ℕ) (rng : ℕ → ℕ) :
    (srp.password_to_secret password rng).1.length = 128 ∧
    (srp.password_to_secret password rng).2 =
      mod_exp srp.g (compute_x (srp.password_to_secret password rng).1 password) srp.N := by
  constructor
  · show ((List.range 128).map fun i => rng i % 256).length = 128
    simp
  · rfl

/-- C7: `compute_u(A, B)` equals the hash of the big-endian serialization of
`A` concatenated with that of `B` (`A` bytes first), reinterpreted as a
big-endian integer, and `compute_x(salt, password)` equals the hash of
`salt` followed by `password`, reinterpreted the same way (the spec-side
formulations are `compute_u_spec` and `compute_x_spec`). -/
theorem compute_u_x_match_spec (A B : ℤ) (salt password : List ℕ) :
    compute_u A B = compute_u_spec A B ∧ compute_x salt password = compute_x_spec salt password :=
  ⟨rfl, rfl⟩

/-- C1: agreement.  For every parameters value, salt, password, pair of
non-negative private exponents, and verifier `v = g^x mod N` with
`x = H(salt || password)`, a client handshake built from the parameters and
the password and a server handshake built from the parameters, the salt and
the verifier satisfy
`client.compute_secret(server.B(), salt) = server.compute_secret(client.A())`
bit-for-bit, and the intermediate `S` and `K` values coincide as well. -/
theorem client_server_agreement (srp : SRP) (salt password : List ℕ) (a b v : ℤ)
    (ha : 0 ≤ a) (hb : 0 ≤ b)
    (hv : v = mod_exp srp.g (compute_x salt password) srp.N) :
    (ClientHandshake.new srp password a).computeS (ServerHandshake.new srp salt v b).B salt
      = (ServerHandshake.new srp salt v b).computeS (ClientHandshake.new srp password a).A ∧
    (ClientHandshake.new srp password a).computeK (ServerHandshake.new srp salt v b).B salt
      = (ServerHandshake.new srp salt v b).computeK (ClientHandshake.new srp password a).A ∧
    (ClientHandshake.new srp password a).compute_secret (ServerHandshake.new srp salt v b).B salt
      = (ServerHandshake.new srp salt v b).compute_secret (ClientHandshake.new srp password a).A := by
  have hS : (ClientHandshake.new srp password a).computeS (ServerHandshake.new srp salt v b).B salt
      = (ServerHandshake.new srp salt v b).computeS (ClientHandshake.new srp password a).A := by
    show mod_exp
        ((mod_exp srp.g b srp.N + srp.k * v)
          - srp.k * mod_exp srp.g (compute_x salt password) srp.N)
        (a + compute_u (mod_exp srp.g a srp.N) (mod_exp srp.g b srp.N + srp.k * v)
          * compute_x salt password) srp.N
      = mod_exp
        (mod_exp srp.g a srp.N
          * mod_exp v (compute_u (mod_exp srp.g a srp.N) (mod_exp srp.g b srp.N + srp.k * v))
            srp.N)
        b srp.N
    rw [hv]
    exact srp_algebra srp.N srp.g srp.k a b
      (compute_u (mod_exp srp.g a srp.N)
        (mod_exp srp.g b srp.N + srp.k * mod_exp srp.g (compute_x salt password) srp.N))
      (compute_x salt password) ha hb (compute_u_nonneg _ _) (compute_x_nonneg _ _)
  have hK : (ClientHandshake.new srp password a).computeK (ServerHandshake.new srp salt v b).B salt
      = (ServerHandshake.new srp salt v b).computeK (ClientHandshake.new srp password a).A := by
    unfold ClientHandshake.computeK ServerHandshake.computeK
    rw [hS]
  refine ⟨hS, hK, ?_⟩
  unfold ClientHandshake.compute_secret ServerHandshake.compute_secret
  rw [hK]
  rfl

/-- Witness for C1 at `N = 23`, `g = 5`, `k = 3`, salt `[1]`,
password `[2]`, client exponent 6, server exponent 11, and the consistent
verifier `v = g^x mod N`. -/
theorem client_server_agreement_witness :
    (ClientHandshake.new ⟨23, 5, 3⟩ [2] 6).compute_secret
        (ServerHandshake.new ⟨23, 5, 3⟩ [1] (mod_exp 5 (compute_x [1] [2]) 23) 11).B [1]
      = (ServerHandshake.new ⟨23, 5, 3⟩ [1] (mod_exp 5 (compute_x [1] [2]) 23) 11).compute_secret
        (ClientHandshake.new ⟨23, 5, 3⟩ [2] 6).A :=
  (client_server_agreement ⟨23, 5, 3⟩ [1] [2] 6 11 (mod_exp 5 (compute_x [1] [2]) 23)
    (by decide) (by decide) rfl).2.2

set_option maxRecDepth 40000 in
/-- C8: `SRP::new` takes no inputs and has no failure modes: the parse of
the hard-coded hex literal for `N` succeeds (so the `unwrap` branch is
unreachable), and the result has `N` equal to that literal's value
(`NValue`, the RFC 3526 1536-bit prime), `g = 2` and `k = 3`. -/
theorem srp_new_constants :
    from_hex_str N_hex = some NValue ∧
    SRP.new.N = NValue ∧ SRP.new.g = 2 ∧ SRP.new.k = 3 := by
  refine ⟨by decide, ?_, rfl, rfl⟩
  show (from_hex_str N_hex).getD 0 = NValue
  decide
